import Mathlib

/-!
Shallow embedding of the computational core of src/reorder_gui.py
(SmartPrint): page slicing into quarters, the stride reordering of the
flattened quarter list, rebuilding output pages, and the process-level
orchestration. Geometry is modelled over the rationals; the page lists,
error returns (Except with the literal Python error messages) and index
arithmetic follow the source line by line.
-/

/-- A PDF media box, as the four corner coordinates used by the source
(lower-left and upper-right corners). -/
structure Box where
  llx : ℚ
  lly : ℚ
  urx : ℚ
  ury : ℚ
deriving DecidableEq

/-- Width of a media box, mirroring mediabox.width in pypdf. -/
def Box.width (b : Box) : ℚ := b.urx - b.llx

/-- Height of a media box, mirroring mediabox.height in pypdf. -/
def Box.height (b : Box) : ℚ := b.ury - b.lly

/-- A page: its media box plus an opaque content identity (pages are
copied by value in the source, carrying their content along). -/
structure Page where
  mediabox : Box
  content : ℕ
deriving DecidableEq

instance : Inhabited Page := ⟨⟨⟨0, 0, 0, 0⟩, 0⟩⟩

/-- Embedding of slice_page_into_quarters: return 4 cropped copies from
top to bottom. For each i in 0..3, the copy keeps the content and gets
media box lower_left = (0, bottom), upper_right = (w, top) with
top = h - step * i, bottom = top - step, step = h / 4. -/
def slice_page_into_quarters (page : Page) : List Page :=
  let w := page.mediabox.width
  let h := page.mediabox.height
  let step := h / 4
  (List.range 4).map (fun (i : ℕ) =>
    let top := h - step * (i : ℚ)
    let bottom := top - step
    { page with mediabox := ⟨0, bottom, w, top⟩ })

/-- Embedding of reorder_stride: guard that the part count is divisible
by 4 (else the ValueError message), set num_pages to the quotient, and
append parts[i + j * num_pages] for i in range num_pages, j in range 4.
All reads are in range under the guard, so getD never hits its default. -/
def reorder_stride {α : Type} [Inhabited α] (parts : List α) :
    Except String (List α × ℕ) :=
  let total_parts := parts.length
  if total_parts % 4 ≠ 0 then
    Except.error "Total invoices must be divisible by 4."
  else
    let num_pages := total_parts / 4
    Except.ok ((List.range num_pages).flatMap (fun i =>
      (List.range 4).map (fun j => parts.getD (i + j * num_pages) default)),
      num_pages)

/-- An output page produced by the rebuilder: the blank page size and the
list of merge_translated_page placements (part, tx, ty) in call order. -/
structure OutPage where
  width : ℚ
  height : ℚ
  placements : List (Page × ℚ × ℚ)
deriving DecidableEq

instance : Inhabited OutPage := ⟨⟨0, 0, []⟩⟩

/-- Embedding of rebuild_pages: take width and height from the template
page, and for each i in range num_pages emit a blank page of that size on
which the slice parts[i * 4 : (i + 1) * 4] is merged in order, the entry
at in-group position idx translated to (0, h - step * (idx + 1)). -/
def rebuild_pages (parts : List Page) (num_pages : ℕ) (template_page : Page) :
    List OutPage :=
  let w := template_page.mediabox.width
  let h := template_page.mediabox.height
  let step := h / 4
  (List.range num_pages).map (fun i =>
    { width := w, height := h,
      placements := ((parts.drop (i * 4)).take 4).enum.map
        (fun p => (p.2, (0 : ℚ), h - step * ((p.1 : ℚ) + 1))) })

/-- Embedding of process_pdf: reject an empty source, slice every page
and concatenate, reorder with the stride, rebuild using the first page as
template, and return the written pages together with the page count. -/
def process_pdf (doc : List Page) : Except String (List OutPage × ℕ) :=
  if doc.isEmpty then
    Except.error "Source PDF is empty."
  else
    let parts := doc.flatMap slice_page_into_quarters
    match reorder_stride parts with
    | Except.error e => Except.error e
    | Except.ok (reordered, num_pages) =>
        Except.ok (rebuild_pages reordered num_pages (doc.getD 0 default),
          num_pages)

/-! Helper lemmas about the stride permutation. -/

/-- The double loop of reorder_stride, read as one flat list: entry k of
the output is the part at flat index k / 4 + k % 4 * n. -/
lemma flatMap_range_four {α : Type} (n : ℕ) (g : ℕ → ℕ → α) :
    (List.range n).flatMap (fun i => (List.range 4).map (g i))
      = (List.range (4 * n)).map (fun k => g (k / 4) (k % 4)) := by
  induction n with
  | zero => simp
  | succ m ih =>
      rw [List.range_succ, List.flatMap_append, ih]
      simp only [List.flatMap_cons, List.flatMap_nil, List.append_nil]
      rw [show 4 * (m + 1) = 4 * m + 4 from by ring, List.range_add,
        List.map_append, List.map_map]
      congr 1
      have hr : List.range 4 = [0, 1, 2, 3] := rfl
      rw [hr]
      simp only [List.map_cons, List.map_nil, Function.comp_apply]
      have e0 : (4 * m + 0) / 4 = m ∧ (4 * m + 0) % 4 = 0 := by omega
      have e1 : (4 * m + 1) / 4 = m ∧ (4 * m + 1) % 4 = 1 := by omega
      have e2 : (4 * m + 2) / 4 = m ∧ (4 * m + 2) % 4 = 2 := by omega
      have e3 : (4 * m + 3) / 4 = m ∧ (4 * m + 3) % 4 = 3 := by omega
      rw [e0.1, e0.2, e1.1, e1.2, e2.1, e2.2, e3.1, e3.2]

/-- Any list is the map of its getD reads over the range of its length. -/
lemma eq_map_range_getD {α : Type} (l : List α) (d : α) :
    l = (List.range l.length).map (fun k => l.getD k d) := by
  apply List.ext_getElem
  · simp
  · intro n h1 h2
    rw [List.getElem_map, List.getElem_range, List.getD_eq_getElem _ _ h1]

/-- The stride index map stays inside the flat range. -/
lemma stride_index_lt {N k : ℕ} (hk : k < 4 * N) : k / 4 + k % 4 * N < 4 * N := by
  have h1 : k % 4 ≤ 3 := by omega
  have h2 : k / 4 < N := by omega
  have h3 : k % 4 * N ≤ 3 * N := Nat.mul_le_mul_right N h1
  calc k / 4 + k % 4 * N ≤ k / 4 + 3 * N := Nat.add_le_add_left h3 _
    _ < N + 3 * N := Nat.add_lt_add_right h2 _
    _ = 4 * N := by ring

/-- The stride index map is injective on the flat range. -/
lemma stride_index_inj {N k m : ℕ} (hk : k < 4 * N) (hm : m < 4 * N)
    (h : k / 4 + k % 4 * N = m / 4 + m % 4 * N) : k = m := by
  have hN : 0 < N := by omega
  have hk4 : k / 4 < N := by omega
  have hm4 : m / 4 < N := by omega
  have e1 : (k / 4 + k % 4 * N) / N = k % 4 := by
    rw [add_comm, mul_comm, Nat.mul_add_div hN, Nat.div_eq_of_lt hk4, Nat.add_zero]
  have e2 : (m / 4 + m % 4 * N) / N = m % 4 := by
    rw [add_comm, mul_comm, Nat.mul_add_div hN, Nat.div_eq_of_lt hm4, Nat.add_zero]
  have emod : k % 4 = m % 4 := by rw [← e1, ← e2, h]
  have ediv : k / 4 = m / 4 := by
    have h2 := h
    rw [emod] at h2
    exact Nat.add_right_cancel h2
  omega

/-- Mapping the stride index over the flat range permutes the range. -/
lemma stride_map_perm_range (N : ℕ) :
    ((List.range (4 * N)).map (fun k => k / 4 + k % 4 * N)).Perm
      (List.range (4 * N)) := by
  apply List.Subperm.perm_of_length_le
  · apply List.subperm_of_subset
    · apply List.Nodup.map_on _ (List.nodup_range _)
      intro x hx y hy hxy
      exact stride_index_inj (List.mem_range.mp hx) (List.mem_range.mp hy) hxy
    · intro a ha
      rcases List.mem_map.mp ha with ⟨k, hk, rfl⟩
      exact List.mem_range.mpr (stride_index_lt (List.mem_range.mp hk))
  · simp

/-- Normal form of reorder_stride on a list of length 4 * N. -/
lemma reorder_stride_eq_map {α : Type} [Inhabited α] (parts : List α) (N : ℕ)
    (hlen : parts.length = 4 * N) :
    reorder_stride parts
      = Except.ok ((List.range (4 * N)).map
          (fun k => parts.getD (k / 4 + k % 4 * N) default), N) := by
  unfold reorder_stride
  rw [if_neg (by omega)]
  have hdiv : parts.length / 4 = N := by omega
  simp only [hdiv]
  rw [flatMap_range_four N (fun i j => parts.getD (i + j * N) default)]

/-- Reading entry i * 4 + j of the stride normal form. -/
lemma stride_map_getD {α : Type} [Inhabited α] (parts : List α) (N : ℕ)
    {i j : ℕ} (hi : i < N) (hj : j < 4) :
    ((List.range (4 * N)).map
        (fun k => parts.getD (k / 4 + k % 4 * N) default)).getD
        (i * 4 + j) default
      = parts.getD (i + j * N) default := by
  have hk : i * 4 + j < 4 * N := by omega
  rw [List.getD_eq_getElem _ _ (by simpa using hk), List.getElem_map,
    List.getElem_range]
  have h1 : (i * 4 + j) / 4 = i := by omega
  have h2 : (i * 4 + j) % 4 = j := by omega
  rw [h1, h2]

/-! Claims about the stride reorderer. -/

/-- C3: on a parts list whose length is divisible by 4, reorder_stride
returns the pair (reordered, M) with M = length / 4, and the output obeys
reordered[i * 4 + j] = parts[i + j * M] for every i < M and j < 4: the
stride is applied to flat sub-region indices, so output page i holds the
sub-regions at flat positions i, i + M, i + 2M, i + 3M. -/
theorem C3_reorder_stride_flat_index_law {α : Type} [Inhabited α]
    (parts : List α) (hmod : parts.length % 4 = 0) :
    ∃ r, reorder_stride parts = Except.ok (r, parts.length / 4) ∧
      ∀ i, i < parts.length / 4 → ∀ j, j < 4 →
        r.getD (i * 4 + j) default
          = parts.getD (i + j * (parts.length / 4)) default := by
  obtain ⟨N, hN⟩ : ∃ N, parts.length = 4 * N := ⟨parts.length / 4, by omega⟩
  have hdiv : parts.length / 4 = N := by omega
  rw [hdiv]
  exact ⟨_, reorder_stride_eq_map parts N hN, fun _ hi _ hj =>
    stride_map_getD parts N hi hj⟩

/-- Witness for C3 on the 8-element list of flat indices 10..80. -/
theorem C3_witness :
    ∃ r, reorder_stride ([10, 20, 30, 40, 50, 60, 70, 80] : List ℕ)
        = Except.ok (r, ([10, 20, 30, 40, 50, 60, 70, 80] : List ℕ).length / 4) ∧
      ∀ i, i < ([10, 20, 30, 40, 50, 60, 70, 80] : List ℕ).length / 4 →
        ∀ j, j < 4 →
        r.getD (i * 4 + j) default
          = ([10, 20, 30, 40, 50, 60, 70, 80] : List ℕ).getD
              (i + j * (([10, 20, 30, 40, 50, 60, 70, 80] : List ℕ).length / 4))
              default :=
  C3_reorder_stride_flat_index_law _ (by decide)

/-- C1 counterexample: at N = 1 with parts [0, 1, 2, 3], the claimed
index law reads the flattened list at (i + j * N) * 4 + j, which is 5 at
i = 0, j = 1 — past the end of the 4-element list. Reading with default
99, the output entry 1 equals 1 while the claimed source entry defaults
to 99, so the law as stated fails on the code. -/
theorem C1_counterexample :
    ∃ r, reorder_stride ([0, 1, 2, 3] : List ℕ) = Except.ok (r, 1) ∧
      ¬ (∀ i, i < 1 → ∀ j, j < 4 →
          r.getD (i * 4 + j) 99
            = ([0, 1, 2, 3] : List ℕ).getD ((i + j * 1) * 4 + j) 99) := by
  refine ⟨[0, 1, 2, 3], rfl, fun hlaw => ?_⟩
  have h := hlaw 0 (by decide) 1 (by decide)
  exact absurd h (by decide)

/-- C1 (amended): for every flattened list of length 4 * N, the output of
reorder_stride satisfies reordered[i * 4 + j] = flattened[i + j * N] for
every i < N and j < 4; so pile j across output pages is the flattened
positions j * N .. j * N + N - 1 in increasing order. -/
theorem C1_amended_stride_index_law {α : Type} [Inhabited α]
    (parts : List α) (N : ℕ) (hlen : parts.length = 4 * N) :
    ∃ r, reorder_stride parts = Except.ok (r, N) ∧
      ∀ i, i < N → ∀ j, j < 4 →
        r.getD (i * 4 + j) default = parts.getD (i + j * N) default :=
  ⟨_, reorder_stride_eq_map parts N hlen, fun _ hi _ hj =>
    stride_map_getD parts N hi hj⟩

/-- Witness for the amended C1 at N = 2. -/
theorem C1_amended_witness :
    ∃ r, reorder_stride ([3, 1, 4, 1, 5, 9, 2, 6] : List ℕ)
        = Except.ok (r, 2) ∧
      ∀ i, i < 2 → ∀ j, j < 4 →
        r.getD (i * 4 + j) default
          = ([3, 1, 4, 1, 5, 9, 2, 6] : List ℕ).getD (i + j * 2) default :=
  C1_amended_stride_index_law _ 2 (by decide)

/-- C2: on a nonempty list of length divisible by 4, reorder_stride
returns a permutation of its input, of the same length: no element is
duplicated and none dropped. -/
theorem C2_reorder_stride_perm {α : Type} [Inhabited α] (parts : List α)
    (hmod : parts.length % 4 = 0) (_hpos : 0 < parts.length) :
    ∃ r, reorder_stride parts = Except.ok (r, parts.length / 4) ∧
      r.Perm parts ∧ r.length = parts.length := by
  obtain ⟨N, hN⟩ : ∃ N, parts.length = 4 * N := ⟨parts.length / 4, by omega⟩
  have hdiv : parts.length / 4 = N := by omega
  rw [hdiv]
  refine ⟨_, reorder_stride_eq_map parts N hN, ?_, by simp [hN]⟩
  have hcomp : (List.range (4 * N)).map
        (fun k => parts.getD (k / 4 + k % 4 * N) default)
      = ((List.range (4 * N)).map (fun k => k / 4 + k % 4 * N)).map
          (fun k => parts.getD k default) := by
    rw [List.map_map]
    rfl
  rw [hcomp]
  have h1 := (stride_map_perm_range N).map (fun k => parts.getD k default)
  have h2 := eq_map_range_getD parts default
  rw [hN] at h2
  rw [← h2] at h1
  exact h1

/-- Witness for C2 on an 8-element list. -/
theorem C2_witness :
    ∃ r, reorder_stride ([1, 2, 3, 4, 5, 6, 7, 8] : List ℕ)
        = Except.ok (r, ([1, 2, 3, 4, 5, 6, 7, 8] : List ℕ).length / 4) ∧
      r.Perm ([1, 2, 3, 4, 5, 6, 7, 8] : List ℕ) ∧
      r.length = ([1, 2, 3, 4, 5, 6, 7, 8] : List ℕ).length :=
  C2_reorder_stride_perm _ (by decide) (by decide)

/-- C8: with exactly 4 parts (N = 1) the reorderer is the identity
permutation: it returns the input list unchanged, paired with 1. -/
theorem C8_single_page_identity {α : Type} [Inhabited α] (parts : List α)
    (hlen : parts.length = 4) :
    reorder_stride parts = Except.ok (parts, 1) := by
  rw [reorder_stride_eq_map parts 1 (by omega)]
  have hmap : (List.range (4 * 1)).map
      (fun k => parts.getD (k / 4 + k % 4 * 1) default) = parts := by
    have hh := eq_map_range_getD parts default
    rw [hlen] at hh
    rw [show 4 * 1 = 4 from rfl]
    conv_rhs => rw [hh]
    apply List.map_congr_left
    intro k hk
    have hk4 := List.mem_range.mp hk
    have : k / 4 + k % 4 * 1 = k := by omega
    rw [this]
  rw [hmap]

/-- Witness for C8 on the list [9, 8, 7, 6]. -/
theorem C8_witness :
    reorder_stride ([9, 8, 7, 6] : List ℕ) = Except.ok ([9, 8, 7, 6], 1) :=
  C8_single_page_identity _ (by decide)

/-- C4: reorder_stride raises the divisibility error exactly on lists
whose length is not divisible by 4; on a length divisible by 4 it returns
a result instead of raising. -/
theorem C4_divisibility_guard {α : Type} [Inhabited α] (parts : List α) :
    (parts.length % 4 ≠ 0 →
      reorder_stride parts
        = Except.error "Total invoices must be divisible by 4.")
    ∧ (parts.length % 4 = 0 →
      ∃ out, reorder_stride parts = Except.ok out) := by
  constructor
  · intro h
    unfold reorder_stride
    rw [if_pos h]
  · intro h
    obtain ⟨N, hN⟩ : ∃ N, parts.length = 4 * N := ⟨parts.length / 4, by omega⟩
    exact ⟨_, reorder_stride_eq_map parts N hN⟩

/-- Witness for C4: a list of length 6 raises, a list of length 4 does
not. -/
theorem C4_witness :
    reorder_stride ([0, 1, 2, 3, 4, 5] : List ℕ)
        = Except.error "Total invoices must be divisible by 4."
    ∧ ∃ out, reorder_stride ([0, 1, 2, 3] : List ℕ) = Except.ok out :=
  ⟨(C4_divisibility_guard _).1 (by decide), (C4_divisibility_guard _).2 (by decide)⟩

/-! Helper lemmas about slicing, rebuilding and orchestration. -/

/-- A page always slices into exactly 4 parts. -/
lemma slice_length (p : Page) : (slice_page_into_quarters p).length = 4 := by
  simp [slice_page_into_quarters]

/-- Slicing every page of a document yields 4 parts per page. -/
lemma flat_parts_length (doc : List Page) :
    (doc.flatMap slice_page_into_quarters).length = 4 * doc.length := by
  induction doc with
  | nil => simp
  | cons p t ih =>
      simp only [List.flatMap_cons, List.length_append, slice_length, ih,
        List.length_cons]
      omega

/-- The sliced part read at a concrete index below 4. -/
lemma slice_getD (page : Page) (i : ℕ) (hi : i < 4) :
    (slice_page_into_quarters page).getD i default
      = { page with mediabox :=
          ⟨0, page.mediabox.height - page.mediabox.height / 4 * (i : ℚ)
              - page.mediabox.height / 4,
            page.mediabox.width,
            page.mediabox.height - page.mediabox.height / 4 * (i : ℚ)⟩ } := by
  simp only [slice_page_into_quarters]
  rw [List.getD_eq_getElem _ _ (by simpa using hi), List.getElem_map,
    List.getElem_range]

/-- The output page read at a concrete index below num_pages. -/
lemma rebuild_pages_getD (parts : List Page) (N : ℕ) (tmpl : Page)
    {i : ℕ} (hi : i < N) :
    (rebuild_pages parts N tmpl).getD i default
      = { width := tmpl.mediabox.width, height := tmpl.mediabox.height,
          placements := ((parts.drop (i * 4)).take 4).enum.map
            (fun p => (p.2, (0 : ℚ),
              tmpl.mediabox.height
                - tmpl.mediabox.height / 4 * ((p.1 : ℚ) + 1))) } := by
  simp only [rebuild_pages]
  rw [List.getD_eq_getElem _ _ (by simpa using hi), List.getElem_map,
    List.getElem_range]

/-- Normal form of process_pdf on a nonempty document. -/
lemma process_pdf_ok (doc : List Page) (hne : doc ≠ []) :
    process_pdf doc
      = Except.ok (rebuild_pages
            ((List.range (4 * doc.length)).map
              (fun k => (doc.flatMap slice_page_into_quarters).getD
                (k / 4 + k % 4 * doc.length) default))
            doc.length (doc.getD 0 default), doc.length) := by
  unfold process_pdf
  rw [if_neg (by simpa [List.isEmpty_iff] using hne)]
  simp only [reorder_stride_eq_map (doc.flatMap slice_page_into_quarters)
    doc.length (flat_parts_length doc)]

/-! Claims about orchestration, rebuilding, and the splitter guard. -/

/-- C5: a source document with 0 pages makes process_pdf return the
empty-document error (and nothing else happens: no split, no geometry, no
output); with at least 1 page this error is never raised. -/
theorem C5_empty_document_guard (doc : List Page) :
    (doc.length = 0 → process_pdf doc = Except.error "Source PDF is empty.")
    ∧ (0 < doc.length →
        process_pdf doc ≠ Except.error "Source PDF is empty.") := by
  constructor
  · intro h
    have hnil : doc = [] := List.length_eq_zero.mp h
    subst hnil
    rfl
  · intro h hcontra
    have hne : doc ≠ [] := by
      intro hnil
      rw [hnil] at h
      exact absurd h (by decide)
    rw [process_pdf_ok doc hne] at hcontra
    exact Except.noConfusion hcontra

/-- Witness for C5: the empty document errors, a one-page document does
not. -/
theorem C5_witness :
    process_pdf [] = Except.error "Source PDF is empty."
    ∧ process_pdf [⟨⟨0, 0, 612, 792⟩, 1⟩]
        ≠ Except.error "Source PDF is empty." :=
  ⟨(C5_empty_document_guard []).1 rfl,
   (C5_empty_document_guard [⟨⟨0, 0, 612, 792⟩, 1⟩]).2 (by decide)⟩

/-- C9: on a non-empty source of uniform-size pages, process_pdf succeeds
returning the page count equal to the source page count, and the output
document holds exactly that many pages. -/
theorem C9_process_returns_page_count (doc : List Page) (hne : doc ≠ [])
    (_huniform : ∀ p ∈ doc, p.mediabox = (doc.getD 0 default).mediabox) :
    ∃ pages, process_pdf doc = Except.ok (pages, doc.length) ∧
      pages.length = doc.length := by
  refine ⟨_, process_pdf_ok doc hne, ?_⟩
  simp [rebuild_pages]

/-- Witness for C9 on a two-page uniform document. -/
theorem C9_witness :
    ∃ pages, process_pdf [⟨⟨0, 0, 612, 792⟩, 1⟩, ⟨⟨0, 0, 612, 792⟩, 2⟩]
        = Except.ok (pages, 2) ∧ pages.length = 2 :=
  C9_process_returns_page_count
    [⟨⟨0, 0, 612, 792⟩, 1⟩, ⟨⟨0, 0, 612, 792⟩, 2⟩] (by decide) (by decide)

/-- C7: on a reordered list of length 4 * N, rebuild_pages constructs
exactly N output pages of the template size; output page i consumes parts
4 * i .. 4 * i + 3 in order, placing the in-group entry k translated to
(0, H - H / 4 * (k + 1)). -/
theorem C7_rebuild_pages_layout (parts : List Page) (N : ℕ) (tmpl : Page)
    (hlen : parts.length = 4 * N) :
    (rebuild_pages parts N tmpl).length = N
    ∧ ∀ i, i < N →
        ((rebuild_pages parts N tmpl).getD i default).width
            = tmpl.mediabox.width
        ∧ ((rebuild_pages parts N tmpl).getD i default).height
            = tmpl.mediabox.height
        ∧ ((rebuild_pages parts N tmpl).getD i default).placements.length = 4
        ∧ ∀ k, k < 4 →
            ((rebuild_pages parts N tmpl).getD i default).placements.getD k
                default
              = (parts.getD (i * 4 + k) default, (0 : ℚ),
                 tmpl.mediabox.height
                   - tmpl.mediabox.height / 4 * ((k : ℚ) + 1)) := by
  refine ⟨by simp [rebuild_pages], fun i hi => ?_⟩
  rw [rebuild_pages_getD parts N tmpl hi]
  have hslice : ((parts.drop (i * 4)).take 4).length = 4 := by
    simp only [List.length_take, List.length_drop, hlen]
    omega
  refine ⟨rfl, rfl, by simp [hslice], fun k hk => ?_⟩
  have hk4 : k < ((parts.drop (i * 4)).take 4).enum.length := by
    simp [List.enum_length, hslice, hk]
  rw [List.getD_eq_getElem _ _ (by simpa using hk4), List.getElem_map,
    List.getElem_enum, List.getElem_take, List.getElem_drop]
  rw [List.getD_eq_getElem parts default (by omega : i * 4 + k < parts.length)]

/-- The lower y coordinate of sliced part i. -/
lemma slice_lly (page : Page) (i : ℕ) (hi : i < 4) :
    ((slice_page_into_quarters page).getD i default).mediabox.lly
      = page.mediabox.height - page.mediabox.height / 4 * (i : ℚ)
          - page.mediabox.height / 4 := by
  rw [slice_getD page i hi]

/-- The upper y coordinate of sliced part i. -/
lemma slice_ury (page : Page) (i : ℕ) (hi : i < 4) :
    ((slice_page_into_quarters page).getD i default).mediabox.ury
      = page.mediabox.height - page.mediabox.height / 4 * (i : ℚ) := by
  rw [slice_getD page i hi]

/-- C6: the splitter yields exactly 4 descriptors; descriptor i has
media box from (0, H - H / 4 * (i + 1)) to (W, H - H / 4 * i), slice
height exactly H / 4; bottoms and tops chain with no gap or overlap
(slice 0 topmost with top H, slice 3 bottommost with bottom 0), and for a
page of nonnegative height the four vertical ranges partition the
half-open interval from 0 to H and are pairwise disjoint. -/
theorem C6_slice_page_geometry (page : Page)
    (hpos : 0 ≤ page.mediabox.height) :
    (slice_page_into_quarters page).length = 4
    ∧ (∀ i, i < 4 →
        ((slice_page_into_quarters page).getD i default).mediabox
          = ⟨0,
              page.mediabox.height - page.mediabox.height / 4 * ((i : ℚ) + 1),
              page.mediabox.width,
              page.mediabox.height - page.mediabox.height / 4 * (i : ℚ)⟩)
    ∧ (∀ i, i < 4 →
        ((slice_page_into_quarters page).getD i default).mediabox.height
          = page.mediabox.height / 4)
    ∧ (∀ i, i < 3 →
        ((slice_page_into_quarters page).getD i default).mediabox.lly
          = ((slice_page_into_quarters page).getD (i + 1) default).mediabox.ury)
    ∧ ((slice_page_into_quarters page).getD 0 default).mediabox.ury
        = page.mediabox.height
    ∧ ((slice_page_into_quarters page).getD 3 default).mediabox.lly = 0
    ∧ (Set.Ico (((slice_page_into_quarters page).getD 3 default).mediabox.lly)
          (((slice_page_into_quarters page).getD 3 default).mediabox.ury)
        ∪ (Set.Ico
            (((slice_page_into_quarters page).getD 2 default).mediabox.lly)
            (((slice_page_into_quarters page).getD 2 default).mediabox.ury)
          ∪ (Set.Ico
              (((slice_page_into_quarters page).getD 1 default).mediabox.lly)
              (((slice_page_into_quarters page).getD 1 default).mediabox.ury)
            ∪ Set.Ico
                (((slice_page_into_quarters page).getD 0 default).mediabox.lly)
                (((slice_page_into_quarters page).getD 0 default).mediabox.ury))))
        = Set.Ico 0 page.mediabox.height
    ∧ (∀ i, i < 4 → ∀ j, j < 4 → i ≠ j →
        Disjoint
          (Set.Ico
            (((slice_page_into_quarters page).getD i default).mediabox.lly)
            (((slice_page_into_quarters page).getD i default).mediabox.ury))
          (Set.Ico
            (((slice_page_into_quarters page).getD j default).mediabox.lly)
            (((slice_page_into_quarters page).getD j default).mediabox.ury))) := by
  refine ⟨slice_length page, ?_, ?_, ?_, ?_, ?_, ?_, ?_⟩
  · intro i hi
    rw [slice_getD page i hi]
    rw [show ({ page with mediabox :=
        ⟨0, page.mediabox.height - page.mediabox.height / 4 * (i : ℚ)
            - page.mediabox.height / 4,
          page.mediabox.width,
          page.mediabox.height
            - page.mediabox.height / 4 * (i : ℚ)⟩ } : Page).mediabox
      = ⟨0, page.mediabox.height - page.mediabox.height / 4 * (i : ℚ)
            - page.mediabox.height / 4,
          page.mediabox.width,
          page.mediabox.height - page.mediabox.height / 4 * (i : ℚ)⟩ from rfl]
    rw [Box.mk.injEq]
    exact ⟨rfl, by ring, rfl, rfl⟩
  · intro i hi
    rw [slice_getD page i hi]
    simp only [Box.height]
    ring
  · intro i hi
    rw [slice_lly page i (by omega), slice_ury page (i + 1) (by omega)]
    push_cast
    ring
  · rw [slice_ury page 0 (by norm_num)]
    norm_num
  · rw [slice_lly page 3 (by norm_num)]
    push_cast
    ring
  · rw [slice_lly page 0 (by norm_num), slice_ury page 0 (by norm_num),
      slice_lly page 1 (by norm_num), slice_ury page 1 (by norm_num),
      slice_lly page 2 (by norm_num), slice_ury page 2 (by norm_num),
      slice_lly page 3 (by norm_num), slice_ury page 3 (by norm_num)]
    ext x
    simp only [Set.mem_union, Set.mem_Ico]
    push_cast
    constructor
    · rintro (⟨h1, h2⟩ | ⟨h1, h2⟩ | ⟨h1, h2⟩ | ⟨h1, h2⟩) <;>
        exact ⟨by linarith, by linarith⟩
    · rintro ⟨hx0, hxh⟩
      rcases lt_or_le x
          (page.mediabox.height - page.mediabox.height / 4 * 3) with c1 | c1
      · exact Or.inl ⟨by linarith, by linarith⟩
      rcases lt_or_le x
          (page.mediabox.height - page.mediabox.height / 4 * 2) with c2 | c2
      · exact Or.inr (Or.inl ⟨by linarith, by linarith⟩)
      rcases lt_or_le x
          (page.mediabox.height - page.mediabox.height / 4 * 1) with c3 | c3
      · exact Or.inr (Or.inr (Or.inl ⟨by linarith, by linarith⟩))
      · exact Or.inr (Or.inr (Or.inr ⟨by linarith, by linarith⟩))
  · intro i hi j hj hne
    rw [slice_lly page i hi, slice_ury page i hi,
      slice_lly page j hj, slice_ury page j hj, Set.Ico_disjoint_Ico]
    have h4 : 0 ≤ page.mediabox.height / 4 := by linarith
    rcases lt_or_gt_of_ne hne with hij | hij
    · have hcast : (i : ℚ) + 1 ≤ (j : ℚ) := by exact_mod_cast hij
      have hmul := mul_le_mul_of_nonneg_left hcast h4
      have hexp : page.mediabox.height / 4 * ((i : ℚ) + 1)
          = page.mediabox.height / 4 * (i : ℚ) + page.mediabox.height / 4 := by
        ring
      exact le_trans (min_le_right _ _) (le_trans (by linarith) (le_max_left _ _))
    · have hcast : (j : ℚ) + 1 ≤ (i : ℚ) := by exact_mod_cast hij
      have hmul := mul_le_mul_of_nonneg_left hcast h4
      have hexp : page.mediabox.height / 4 * ((j : ℚ) + 1)
          = page.mediabox.height / 4 * (j : ℚ) + page.mediabox.height / 4 := by
        ring
      exact le_trans (min_le_left _ _) (le_trans (by linarith) (le_max_right _ _))

/-- Witness for C6 on a letter-size page. -/
theorem C6_witness :
    (0 : ℚ) ≤ (Page.mk ⟨0, 0, 612, 792⟩ 5).mediabox.height
    ∧ (slice_page_into_quarters (Page.mk ⟨0, 0, 612, 792⟩ 5)).length = 4 :=
  ⟨by norm_num [Box.height],
   (C6_slice_page_geometry (Page.mk ⟨0, 0, 612, 792⟩ 5)
     (by norm_num [Box.height])).1⟩

/-- Witness for C7 on an 8-part reordered list with N = 2. -/
theorem C7_witness :
    ([Page.mk ⟨0, 0, 612, 792⟩ 1, Page.mk ⟨0, 0, 612, 792⟩ 2,
      Page.mk ⟨0, 0, 612, 792⟩ 3, Page.mk ⟨0, 0, 612, 792⟩ 4,
      Page.mk ⟨0, 0, 612, 792⟩ 5, Page.mk ⟨0, 0, 612, 792⟩ 6,
      Page.mk ⟨0, 0, 612, 792⟩ 7, Page.mk ⟨0, 0, 612, 792⟩ 8] : List Page).length
        = 4 * 2
    ∧ (rebuild_pages
        [Page.mk ⟨0, 0, 612, 792⟩ 1, Page.mk ⟨0, 0, 612, 792⟩ 2,
         Page.mk ⟨0, 0, 612, 792⟩ 3, Page.mk ⟨0, 0, 612, 792⟩ 4,
         Page.mk ⟨0, 0, 612, 792⟩ 5, Page.mk ⟨0, 0, 612, 792⟩ 6,
         Page.mk ⟨0, 0, 612, 792⟩ 7, Page.mk ⟨0, 0, 612, 792⟩ 8]
        2 (Page.mk ⟨0, 0, 612, 792⟩ 1)).length = 2
    ∧ ((rebuild_pages
        [Page.mk ⟨0, 0, 612, 792⟩ 1, Page.mk ⟨0, 0, 612, 792⟩ 2,
         Page.mk ⟨0, 0, 612, 792⟩ 3, Page.mk ⟨0, 0, 612, 792⟩ 4,
         Page.mk ⟨0, 0, 612, 792⟩ 5, Page.mk ⟨0, 0, 612, 792⟩ 6,
         Page.mk ⟨0, 0, 612, 792⟩ 7, Page.mk ⟨0, 0, 612, 792⟩ 8]
        2 (Page.mk ⟨0, 0, 612, 792⟩ 1)).getD 0 default).placements.length = 4 :=
  ⟨rfl,
   (C7_rebuild_pages_layout
     [Page.mk ⟨0, 0, 612, 792⟩ 1, Page.mk ⟨0, 0, 612, 792⟩ 2,
      Page.mk ⟨0, 0, 612, 792⟩ 3, Page.mk ⟨0, 0, 612, 792⟩ 4,
      Page.mk ⟨0, 0, 612, 792⟩ 5, Page.mk ⟨0, 0, 612, 792⟩ 6,
      Page.mk ⟨0, 0, 612, 792⟩ 7, Page.mk ⟨0, 0, 612, 792⟩ 8] 2 (Page.mk ⟨0, 0, 612, 792⟩ 1) rfl).1,
   ((C7_rebuild_pages_layout
     [Page.mk ⟨0, 0, 612, 792⟩ 1, Page.mk ⟨0, 0, 612, 792⟩ 2,
      Page.mk ⟨0, 0, 612, 792⟩ 3, Page.mk ⟨0, 0, 612, 792⟩ 4,
      Page.mk ⟨0, 0, 612, 792⟩ 5, Page.mk ⟨0, 0, 612, 792⟩ 6,
      Page.mk ⟨0, 0, 612, 792⟩ 7, Page.mk ⟨0, 0, 612, 792⟩ 8] 2 (Page.mk ⟨0, 0, 612, 792⟩ 1) rfl).2 0
     (by norm_num)).2.2.1⟩

/-- C10 counterexample: a page whose media box has zero width and zero
height (both non-positive) is not rejected — the splitter still returns 4
sub-region descriptors, so the claimed failure does not happen. -/
theorem C10_counterexample :
    (Page.mk ⟨0, 0, 0, 0⟩ 7).mediabox.width ≤ 0
    ∧ (Page.mk ⟨0, 0, 0, 0⟩ 7).mediabox.height ≤ 0
    ∧ (slice_page_into_quarters (Page.mk ⟨0, 0, 0, 0⟩ 7)).length = 4 :=
  ⟨by norm_num [Box.width], by norm_num [Box.height], rfl⟩

/-- C10 (amended): the splitter performs no geometry validation at all —
for every page, with degenerate dimensions or not, it returns exactly 4
sub-region descriptors and never fails. -/
theorem C10_amended_no_geometry_validation (page : Page) :
    (slice_page_into_quarters page).length = 4 :=
  slice_length page
